import Mathlib

/-!
Verification of the concurrent copy engine in `copy.go` of oras-go.

The engine's two graph handlers (`preHandler` and `postHandler` inside
`CopyGraph`), together with `handleCopyNode`, `copyNode` and the top-level
`Copy`, are embedded as pure Lean functions.  External collaborators that
are not part of `src/copy.go` (the storage backends, the down-edge parser
`content.DownEdges`, the per-node hooks, and the outcome of the channel
`select`) are supplied as oracles in an `Env` record; the commit tracker
(`internal/status`, also outside `src/`) is modelled from the spec.  Each
handler returns, besides its Go return value, the updated tracker state and
a trace of the observable effects it performed, in program order.
-/

/-- Descriptor mirrors `ocispec.Descriptor` as used by `copy.go`: digest is
the sole identity (digest equality is the only identity test the engine
performs); size and media type are carried along. -/
structure Descriptor where
  mediaType : String
  digest : String
  size : Int
deriving DecidableEq

/-- Errors observable by the engine.  `alreadyExists` models
`errdef.ErrAlreadyExists`; `notFound` models `errdef.ErrNotFound`;
`cancelled` models a `ctx.Err()` result; `downEdgeNotCommitted parent child`
models the `fmt.Errorf("%s: %s: down edge not committed", ...)` error built
at line 175 of `copy.go`; `msg` models any other `errors.New` error. -/
inductive Err where
  | alreadyExists
  | notFound
  | cancelled
  | downEdgeNotCommitted (parent child : String)
  | msg (s : String)
deriving DecidableEq

/-- Models `errors.Is(err, errdef.ErrAlreadyExists)` for an unwrapped
error value. -/
def Err.isAlreadyExists : Err → Bool
  | .alreadyExists => true
  | _ => false

/-- Which storage a fetch is served from: the true source `src`, or the
caching proxy's cache `proxy.Cache`.  (`copyNode` is called with `src` for
leaf nodes and with `proxy.Cache` for non-leaf nodes.) -/
inductive StoreId where
  | source
  | cache
deriving DecidableEq

/-- Observable effects of the handlers, recorded in program order.
`tryCommit dg won` is a call to `tracker.TryCommit`; `closeDone dg` closes
the entry's completion channel; `waitDone dg` is a `select` on a child's
completion channel that observed completion (a `select` resolved by
`ctx.Done()` records no `waitDone` event); the remaining events are the
destination-existence check, the cache-existence check, down-edge
enumeration, fetch, push, stream close, and the three user hooks. -/
inductive Event where
  | tryCommit (digest : String) (won : Bool)
  | closeDone (digest : String)
  | dstExists (digest : String)
  | cacheExists (digest : String)
  | downEdges (digest : String)
  | waitDone (digest : String)
  | fetch (side : StoreId) (digest : String)
  | push (digest : String)
  | closeStream (digest : String)
  | preCopyHook (digest : String)
  | postCopyHook (digest : String)
  | skippedHook (digest : String)
deriving DecidableEq

/-- Result of the pre-handler, mirroring its Go return value
`([]ocispec.Descriptor, error)`: a child list, the sentinel
`graph.ErrSkipDesc`, or a genuine error. -/
inductive PreResult where
  | children (descs : List Descriptor)
  | skip
  | fail (e : Err)
deriving DecidableEq

/-- Oracles for the collaborators `copy.go` calls into.  `dstExists` is
`dst.Exists`; `cacheExists` is `proxy.Cache.Exists`; `downEdges` is
`content.DownEdges(ctx, proxy, ·)`; `fetch side dg` is the result of
`Fetch` on the given storage (`none` = success); `push dg` is the result of
`dst.Push` (`none` = success); `wait dg` is the outcome of the `select` on
a child's completion channel (`none` = the channel fired, `some e` = the
context was cancelled with error `e`). -/
structure Env where
  dstExists : String → Except Err Bool
  cacheExists : String → Except Err Bool
  downEdges : String → Except Err (List Descriptor)
  fetch : StoreId → String → Option Err
  push : String → Option Err
  wait : String → Option Err

/-- CopyGraphOptions from `copy.go`.  The three hooks are optional
(`none` models a nil function field); a hook returns `none` on success.
The `Cache` field is not modelled directly: the cache's contents are
abstracted by the `cacheExists` oracle. -/
structure CopyGraphOptions where
  Concurrency : Int := 0
  PreCopyHandler : Option (Descriptor → Option Err) := none
  PostCopyHandler : Option (Descriptor → Option Err) := none
  SkippedCopyHandler : Option (Descriptor → Option Err) := none

/-- Modelled from the spec: the commit tracker of `internal/status` (not
under `src/`).  Per spec §4.1, `TryCommit` atomically creates a pending
entry on first observation of a digest (the caller wins the race) and
returns the existing entry otherwise (the caller loses); completion is
signalled by closing the entry's channel.  `entries` is the set of digests
holding an entry (committed/pending or done); `doneSet` is the set of
digests whose completion channel has been closed. -/
structure Tracker where
  entries : List String := []
  doneSet : List String := []
deriving DecidableEq

/-- The empty tracker created by `status.NewTracker()`. -/
def Tracker.init : Tracker := { entries := [], doneSet := [] }

/-- Modelled from the spec (§4.1): `tracker.TryCommit(desc)` returns the
entry's completion signal and whether this caller won the commit race. -/
def Tracker.tryCommit (t : Tracker) (dg : String) : Tracker × Bool :=
  if dg ∈ t.entries then (t, false)
  else ({ t with entries := dg :: t.entries }, true)

/-- Modelled from the spec (§4.1): `close(done)` on the entry for `dg`
marks the content as done; every current and future waiter observes it. -/
def Tracker.markDone (t : Tracker) (dg : String) : Tracker :=
  { t with doneSet := dg :: t.doneSet }

/-- Embedding of `copyNode` (src/copy.go lines 213-224): fetch the
descriptor from `side`, push the stream to the destination, and swallow a
push error that `errors.Is`-matches `errdef.ErrAlreadyExists`.  The
deferred `rc.Close()` is the `closeStream` event; on a fetch error no
stream was opened, so no close happens. -/
def copyNode (env : Env) (side : StoreId) (desc : Descriptor) :
    List Event × Option Err :=
  match env.fetch side desc.digest with
  | some e => ([.fetch side desc.digest], some e)
  | none =>
    ([Event.fetch side desc.digest, Event.push desc.digest,
      Event.closeStream desc.digest],
      match env.push desc.digest with
      | some e => if e.isAlreadyExists then none else some e
      | none => none)

/-- Embedding of `handleCopyNode` (src/copy.go lines 194-210): run the
optional pre-copy hook (an error aborts the node), then `copyNode`, then
on success the optional post-copy hook. -/
def handleCopyNode (env : Env) (opts : CopyGraphOptions) (side : StoreId)
    (desc : Descriptor) : List Event × Option Err :=
  match opts.PreCopyHandler with
  | some h =>
    match h desc with
    | some e => ([.preCopyHook desc.digest], some e)
    | none => handleCopyNodeRest env opts side desc [Event.preCopyHook desc.digest]
  | none => handleCopyNodeRest env opts side desc []
where
  /-- The part of `handleCopyNode` after the pre-copy hook succeeded (or
  was absent): `copyNode` followed by the optional post-copy hook. -/
  handleCopyNodeRest (env : Env) (opts : CopyGraphOptions) (side : StoreId)
      (desc : Descriptor) (ev0 : List Event) : List Event × Option Err :=
    let c := copyNode env side desc
    match c.2 with
    | some e => (ev0 ++ c.1, some e)
    | none =>
      match opts.PostCopyHandler with
      | some h => (ev0 ++ c.1 ++ [Event.postCopyHook desc.digest], h desc)
      | none => (ev0 ++ c.1, none)

/-- Embedding of the pre-handler closure of `CopyGraph` (src/copy.go lines
120-145): try to commit the descriptor (losing the race skips the
sub-DAG); if the destination already has the digest, close the completion
channel, run the optional skipped hook, and skip; otherwise enumerate down
edges through the caching proxy. -/
def preHandler (env : Env) (opts : CopyGraphOptions) (t : Tracker)
    (desc : Descriptor) : Tracker × List Event × PreResult :=
  let tc := t.tryCommit desc.digest
  if !tc.2 then (tc.1, [Event.tryCommit desc.digest tc.2], .skip)
  else
    match env.dstExists desc.digest with
    | .error e =>
      (tc.1, [Event.tryCommit desc.digest tc.2, Event.dstExists desc.digest],
        .fail e)
    | .ok true =>
      let t2 := tc.1.markDone desc.digest
      let ev := [Event.tryCommit desc.digest tc.2, Event.dstExists desc.digest,
        Event.closeDone desc.digest]
      match opts.SkippedCopyHandler with
      | some h =>
        match h desc with
        | some e => (t2, ev ++ [Event.skippedHook desc.digest], .fail e)
        | none => (t2, ev ++ [Event.skippedHook desc.digest], .skip)
      | none => (t2, ev, .skip)
    | .ok false =>
      match env.downEdges desc.digest with
      | .error e =>
        (tc.1, [Event.tryCommit desc.digest tc.2, Event.dstExists desc.digest,
          Event.downEdges desc.digest], .fail e)
      | .ok descs =>
        (tc.1, [Event.tryCommit desc.digest tc.2, Event.dstExists desc.digest,
          Event.downEdges desc.digest], .children descs)

/-- Embedding of the child wait loop of the post-handler (src/copy.go lines
172-182): for each down edge, `TryCommit` it — if the commit is won the
child was never claimed and the copy fails with the internal-invariant
error — then `select` on its completion channel against `ctx.Done()`. -/
def waitForChildren (env : Env) (parent : String) :
    Tracker → List Descriptor → Tracker × List Event × Option Err
  | t, [] => (t, [], none)
  | t, node :: rest =>
    let tc := t.tryCommit node.digest
    if tc.2 then
      (tc.1, [Event.tryCommit node.digest tc.2],
        some (.downEdgeNotCommitted parent node.digest))
    else
      match env.wait node.digest with
      | some e => (tc.1, [Event.tryCommit node.digest tc.2], some e)
      | none =>
        let r := waitForChildren env parent tc.1 rest
        (r.1, Event.tryCommit node.digest tc.2 :: Event.waitDone node.digest ::
          r.2.1, r.2.2)

/-- Body of the post-handler closure of `CopyGraph` (src/copy.go lines
157-183), before the deferred completion marking: a digest absent from the
cache is a leaf and is copied straight from the true source; a cached
digest is a non-leaf: wait for all its down edges, then copy it from the
cache. -/
def postBody (env : Env) (opts : CopyGraphOptions) (t : Tracker)
    (desc : Descriptor) : Tracker × List Event × Option Err :=
  match env.cacheExists desc.digest with
  | .error e => (t, [Event.cacheExists desc.digest], some e)
  | .ok false =>
    let r := handleCopyNode env opts .source desc
    (t, Event.cacheExists desc.digest :: r.1, r.2)
  | .ok true =>
    match env.downEdges desc.digest with
    | .error e =>
      (t, [Event.cacheExists desc.digest, Event.downEdges desc.digest], some e)
    | .ok descs =>
      let w := waitForChildren env desc.digest t descs
      match w.2.2 with
      | some e =>
        (w.1, Event.cacheExists desc.digest :: Event.downEdges desc.digest ::
          w.2.1, some e)
      | none =>
        let r := handleCopyNode env opts .cache desc
        (w.1, Event.cacheExists desc.digest :: Event.downEdges desc.digest ::
          (w.2.1 ++ r.1), r.2)

/-- Embedding of the post-handler closure of `CopyGraph` (src/copy.go lines
148-184): the body above, plus the deferred block that, only when the body
returned no error, re-`TryCommit`s the descriptor and closes its completion
channel. -/
def postHandler (env : Env) (opts : CopyGraphOptions) (t : Tracker)
    (desc : Descriptor) : Tracker × List Event × Option Err :=
  let b := postBody env opts t desc
  match b.2.2 with
  | some e => (b.1, b.2.1, some e)
  | none =>
    let tc := b.1.tryCommit desc.digest
    (tc.1.markDone desc.digest,
      b.2.1 ++ [Event.tryCommit desc.digest tc.2, Event.closeDone desc.digest],
      none)

/-- The constant `defaultConcurrency` of src/copy.go line 34. -/
def defaultConcurrency : Int := 3

/-- The concurrency value `CopyGraph` (src/copy.go lines 186-190) hands to
`semaphore.NewWeighted` before calling `graph.Dispatch`: a non-positive
configured value is replaced by the default. -/
def CopyGraph.effectiveConcurrency (opts : CopyGraphOptions) : Int :=
  if opts.Concurrency ≤ 0 then defaultConcurrency else opts.Concurrency

/-- Events of the top-level `Copy` wrapper, in program order: reference
resolution at the source, the root filter, the graph copy, and the final
tag at the destination. -/
inductive CopyEvent where
  | resolve (ref : String)
  | rootFilter (digest : String)
  | copyGraph (digest : String)
  | tag (digest : String) (ref : String)
deriving DecidableEq

/-- The `Target` interface as used by `Copy`: `Resolve` and `Tag` (the
`content.Storage` part is not needed by the wrapper itself). -/
structure Target where
  resolve : String → Except Err Descriptor
  tag : Descriptor → String → Option Err

/-- CopyOptions from `copy.go`: the embedded `CopyGraphOptions` plus the
optional `RootFilter`.  A filter call returns `(desc, found)` or an
error, mirroring the Go signature. -/
structure CopyOptions where
  graphOpts : CopyGraphOptions := {}
  RootFilter : Option (Descriptor → Except Err (Descriptor × Bool)) := none

/-- Embedding of `Copy` (src/copy.go lines 69-105).  A nil Go interface is
modelled by `none`.  The outcome of `CopyGraph` on the root is abstracted
by the `copyGraphResult` oracle (the graph walk itself is `graph.Dispatch`,
external to this file's claims about `Copy`).  Returns the event trace and
the Go return value. -/
def Copy (src : Option Target) (srcRef : String) (dst : Option Target)
    (dstRef : String) (opts : CopyOptions)
    (copyGraphResult : Descriptor → Option Err) :
    List CopyEvent × Except Err Descriptor :=
  match src with
  | none => ([], .error (.msg "nil source target"))
  | some s =>
    match dst with
    | none => ([], .error (.msg "nil destination target"))
    | some d =>
      let dstRef := if dstRef = "" then srcRef else dstRef
      match s.resolve srcRef with
      | .error e => ([.resolve srcRef], .error e)
      | .ok root =>
        let filtered : List CopyEvent × Except Err Descriptor :=
          match opts.RootFilter with
          | none => ([.resolve srcRef], .ok root)
          | some f =>
            match f root with
            | .error e =>
              ([.resolve srcRef, .rootFilter root.digest], .error e)
            | .ok fr =>
              if fr.2 then
                ([.resolve srcRef, .rootFilter root.digest], .ok fr.1)
              else
                ([.resolve srcRef, .rootFilter root.digest], .error .notFound)
        match filtered with
        | (ev, .error e) => (ev, .error e)
        | (ev, .ok root) =>
          match copyGraphResult root with
          | some e => (ev ++ [.copyGraph root.digest], .error e)
          | none =>
            match d.tag root dstRef with
            | some e =>
              (ev ++ [.copyGraph root.digest, .tag root.digest dstRef],
                .error e)
            | none =>
              (ev ++ [.copyGraph root.digest, .tag root.digest dstRef],
                .ok root)

/-- Sample leaf descriptor used by witnesses. -/
def descA : Descriptor :=
  { mediaType := "application/vnd.oci.image.layer.v1.tar"
    digest := "sha256:aaa", size := 3 }

/-- Second sample leaf descriptor used by witnesses. -/
def descB : Descriptor :=
  { mediaType := "application/vnd.oci.image.layer.v1.tar"
    digest := "sha256:bbb", size := 4 }

/-- Sample manifest descriptor (a non-leaf node) used by witnesses. -/
def descM : Descriptor :=
  { mediaType := "application/vnd.oci.image.manifest.v1+json"
    digest := "sha256:mmm", size := 100 }

/-- Environment of a run where nothing is at the destination yet, the
manifest `descM` has been cached by discovery with children `descA` and
`descB`, and every storage operation and wait succeeds. -/
def envOk : Env :=
  { dstExists := fun _ => .ok false
    cacheExists := fun dg => .ok (dg = "sha256:mmm")
    downEdges := fun dg =>
      .ok (if dg = "sha256:mmm" then [descA, descB] else [])
    fetch := fun _ _ => none
    push := fun _ => none
    wait := fun _ => none }

/-- Environment where every digest already exists at the destination. -/
def envDstHas : Env :=
  { envOk with dstExists := fun _ => .ok true }

/-- Environment where every push reports `ErrAlreadyExists`. -/
def envPushExists : Env :=
  { envOk with push := fun _ => some .alreadyExists }

/-- Environment where every push fails with cancellation. -/
def envPushFails : Env :=
  { envOk with push := fun _ => some .cancelled }

/-- Options with a skipped-copy hook that always fails. -/
def optsSkipFail : CopyGraphOptions :=
  { SkippedCopyHandler := some (fun _ => some .cancelled) }

/-- Options with all three hooks present and succeeding. -/
def optsAllHooks : CopyGraphOptions :=
  { PreCopyHandler := some (fun _ => none)
    PostCopyHandler := some (fun _ => none)
    SkippedCopyHandler := some (fun _ => none) }

/-- Sample target whose resolve and tag always succeed, resolving every
reference to `descM`. -/
def targetOk : Target :=
  { resolve := fun _ => .ok descM
    tag := fun _ _ => none }

/-- C5: for every node transfer, a push failing with the distinguishable
"already exists" error is treated as success (`copyNode` returns no error),
while any other fetch or push error is returned as fatal. -/
theorem c5_already_exists_benign (env : Env) (side : StoreId)
    (desc : Descriptor) :
    (∀ e, env.fetch side desc.digest = some e →
      copyNode env side desc = ([Event.fetch side desc.digest], some e)) ∧
    (env.fetch side desc.digest = none →
      (∀ e, env.push desc.digest = some e → e.isAlreadyExists = true →
        (copyNode env side desc).2 = none) ∧
      (∀ e, env.push desc.digest = some e → e.isAlreadyExists = false →
        (copyNode env side desc).2 = some e) ∧
      (env.push desc.digest = none → (copyNode env side desc).2 = none)) := by
  refine ⟨fun e hf => by simp [copyNode, hf], fun hf => ⟨?_, ?_, ?_⟩⟩
  · intro e hp ha; simp [copyNode, hf, hp, ha]
  · intro e hp ha; simp [copyNode, hf, hp, ha]
  · intro hp; simp [copyNode, hf, hp]

/-- Witness for C5 at a concrete input: with every push reporting
"already exists", `copyNode` succeeds. -/
theorem c5_witness : (copyNode envPushExists .source descA).2 = none :=
  ((c5_already_exists_benign envPushExists .source descA).2 rfl).1
    .alreadyExists rfl rfl

/-- C9: a `CopyGraphOptions.Concurrency` value less than or equal to 0 is
replaced by the default concurrency limit 3; a positive value is used as
given when `CopyGraph` builds the weighted semaphore for `graph.Dispatch`. -/
theorem c9_default_concurrency (opts : CopyGraphOptions) :
    (opts.Concurrency ≤ 0 → CopyGraph.effectiveConcurrency opts = 3) ∧
    (0 < opts.Concurrency →
      CopyGraph.effectiveConcurrency opts = opts.Concurrency) := by
  constructor <;> intro h
  · simp [CopyGraph.effectiveConcurrency, defaultConcurrency, h]
  · simp [CopyGraph.effectiveConcurrency, defaultConcurrency,
      show ¬opts.Concurrency ≤ 0 by omega]

/-- Witness for C9 at concrete inputs: the zero default and a configured
value of 7. -/
theorem c9_witness :
    CopyGraph.effectiveConcurrency {} = 3 ∧
    CopyGraph.effectiveConcurrency { Concurrency := 7 } = 7 :=
  ⟨(c9_default_concurrency {}).1 (by decide),
    (c9_default_concurrency { Concurrency := 7 }).2 (by decide)⟩

/-- C10: `Copy` with a nil source target returns the error
"nil source target", with a nil destination target returns
"nil destination target", in both cases with an empty effect trace (so
before any resolution, graph copy, or tagging); and when the destination
reference is blank the source reference is used for the final tag. -/
theorem c10_nil_targets_and_ref_default :
    (∀ srcRef dst dstRef opts cg,
      Copy none srcRef dst dstRef opts cg =
        ([], .error (.msg "nil source target"))) ∧
    (∀ src srcRef dstRef opts cg,
      Copy (some src) srcRef none dstRef opts cg =
        ([], .error (.msg "nil destination target"))) ∧
    (∀ (src dst : Target) srcRef (opts : CopyOptions) cg root,
      src.resolve srcRef = .ok root → opts.RootFilter = none →
      cg root = none →
      CopyEvent.tag root.digest srcRef ∈
        (Copy (some src) srcRef (some dst) "" opts cg).1) := by
  refine ⟨fun _ _ _ _ _ => rfl, fun _ _ _ _ _ => rfl,
    fun src dst srcRef opts cg root hres hfil hcg => ?_⟩
  simp only [Copy, hres, hfil, hcg, if_pos rfl]
  split <;> simp

/-- Witness for C10 at concrete inputs. -/
theorem c10_witness :
    Copy none "v1" (some targetOk) "" {} (fun _ => none) =
      ([], .error (.msg "nil source target")) ∧
    Copy (some targetOk) "v1" none "" {} (fun _ => none) =
      ([], .error (.msg "nil destination target")) ∧
    CopyEvent.tag descM.digest "v1" ∈
      (Copy (some targetOk) "v1" (some targetOk) "" {} (fun _ => none)).1 :=
  ⟨c10_nil_targets_and_ref_default.1 "v1" (some targetOk) "" {} (fun _ => none),
    c10_nil_targets_and_ref_default.2.1 targetOk "v1" "" {} (fun _ => none),
    c10_nil_targets_and_ref_default.2.2 targetOk targetOk "v1" {}
      (fun _ => none) descM rfl rfl rfl⟩

/-- Branch lemma: a pre-handler call that loses the commit race skips,
leaving the tracker untouched and performing no other effect. -/
theorem preHandler_lose (env : Env) (opts : CopyGraphOptions) (t : Tracker)
    (desc : Descriptor) (hm : desc.digest ∈ t.entries) :
    preHandler env opts t desc =
      (t, [Event.tryCommit desc.digest false], .skip) := by
  simp [preHandler, Tracker.tryCommit, hm]

/-- Branch lemma: the destination existence check fails. -/
theorem preHandler_dstErr (env : Env) (opts : CopyGraphOptions) (t : Tracker)
    (desc : Descriptor) (e : Err) (hm : desc.digest ∉ t.entries)
    (he : env.dstExists desc.digest = .error e) :
    preHandler env opts t desc =
      ({ t with entries := desc.digest :: t.entries },
        [Event.tryCommit desc.digest true, Event.dstExists desc.digest],
        .fail e) := by
  simp [preHandler, Tracker.tryCommit, hm, he]

/-- Branch lemma: the digest exists at the destination and no skipped hook
is configured. -/
theorem preHandler_exists_noHook (env : Env) (opts : CopyGraphOptions)
    (t : Tracker) (desc : Descriptor) (hm : desc.digest ∉ t.entries)
    (he : env.dstExists desc.digest = .ok true)
    (hs : opts.SkippedCopyHandler = none) :
    preHandler env opts t desc =
      ({ entries := desc.digest :: t.entries,
         doneSet := desc.digest :: t.doneSet },
        [Event.tryCommit desc.digest true, Event.dstExists desc.digest,
         Event.closeDone desc.digest], .skip) := by
  simp [preHandler, Tracker.tryCommit, Tracker.markDone, hm, he, hs]

/-- Branch lemma: the digest exists at the destination and the skipped hook
runs; the hook's outcome decides skip versus failure, and the completion
channel is closed either way, before the hook runs. -/
theorem preHandler_exists_hook (env : Env) (opts : CopyGraphOptions)
    (t : Tracker) (desc : Descriptor)
    (h : Descriptor → Option Err) (hm : desc.digest ∉ t.entries)
    (he : env.dstExists desc.digest = .ok true)
    (hs : opts.SkippedCopyHandler = some h) :
    preHandler env opts t desc =
      ({ entries := desc.digest :: t.entries,
         doneSet := desc.digest :: t.doneSet },
        [Event.tryCommit desc.digest true, Event.dstExists desc.digest,
         Event.closeDone desc.digest, Event.skippedHook desc.digest],
        match h desc with
        | some e => .fail e
        | none => .skip) := by
  cases hd : h desc <;>
    simp [preHandler, Tracker.tryCommit, Tracker.markDone, hm, he, hs, hd]

/-- Branch lemma: down-edge enumeration fails. -/
theorem preHandler_downErr (env : Env) (opts : CopyGraphOptions)
    (t : Tracker) (desc : Descriptor) (e : Err) (hm : desc.digest ∉ t.entries)
    (he : env.dstExists desc.digest = .ok false)
    (hd : env.downEdges desc.digest = .error e) :
    preHandler env opts t desc =
      ({ t with entries := desc.digest :: t.entries },
        [Event.tryCommit desc.digest true, Event.dstExists desc.digest,
         Event.downEdges desc.digest], .fail e) := by
  simp [preHandler, Tracker.tryCommit, hm, he, hd]

/-- Branch lemma: the winner finds the digest absent from the destination
and enumerates its children. -/
theorem preHandler_children (env : Env) (opts : CopyGraphOptions)
    (t : Tracker) (desc : Descriptor) (cs : List Descriptor)
    (hm : desc.digest ∉ t.entries)
    (he : env.dstExists desc.digest = .ok false)
    (hd : env.downEdges desc.digest = .ok cs) :
    preHandler env opts t desc =
      ({ t with entries := desc.digest :: t.entries },
        [Event.tryCommit desc.digest true, Event.dstExists desc.digest,
         Event.downEdges desc.digest], .children cs) := by
  simp [preHandler, Tracker.tryCommit, hm, he, hd]

/-- The wait loop of the post-handler never closes a completion channel:
the tracker's done set is unchanged by `waitForChildren`. -/
theorem waitForChildren_doneSet (env : Env) (p : String) :
    ∀ (cs : List Descriptor) (t : Tracker),
      (waitForChildren env p t cs).1.doneSet = t.doneSet := by
  intro cs
  induction cs with
  | nil => intro t; rfl
  | cons c rest ih =>
    intro t
    unfold waitForChildren Tracker.tryCommit
    by_cases hm : c.digest ∈ t.entries
    · simp only [hm, if_pos, if_neg, Bool.false_eq_true, if_false]
      cases hw : env.wait c.digest <;> simp [hw, ih]
    · simp [hm]

/-- The body of the post-handler (everything before the deferred block)
never closes a completion channel. -/
theorem postBody_doneSet (env : Env) (opts : CopyGraphOptions) (t : Tracker)
    (desc : Descriptor) :
    (postBody env opts t desc).1.doneSet = t.doneSet := by
  unfold postBody
  cases hc : env.cacheExists desc.digest with
  | error e => simp
  | ok b =>
    cases b
    · simp
    · cases hd : env.downEdges desc.digest with
      | error e => simp
      | ok cs =>
        cases hw : (waitForChildren env desc.digest t cs).2.2 <;>
          simp [hw, waitForChildren_doneSet]

/-- Counterexample to C1 as stated: with the digest already present at the
destination and a failing skipped hook, the pre-handler's error exit at the
hook happens after `close(done)` (line 134 precedes line 136 of
src/copy.go), so this failed node's completion signal IS closed. -/
theorem c1_counterexample :
    (preHandler envDstHas optsSkipFail Tracker.init descA).2.2 =
      PreResult.fail Err.cancelled ∧
    "sha256:aaa" ∈
      (preHandler envDstHas optsSkipFail Tracker.init descA).1.doneSet := by
  decide

/-- C1 (amended): on every error exit of the post-handler the completion
signal is not closed, and likewise on every error exit of the pre-handler
except the skipped-hook failure path, where the node already exists at the
destination and its signal was deliberately closed before the hook ran. -/
theorem c1_no_done_on_error (env : Env) (opts : CopyGraphOptions)
    (t : Tracker) (desc : Descriptor) :
    (∀ e, (postHandler env opts t desc).2.2 = some e →
      (postHandler env opts t desc).1.doneSet = t.doneSet) ∧
    (∀ e, (preHandler env opts t desc).2.2 = .fail e →
      (preHandler env opts t desc).1.doneSet = t.doneSet ∨
      (env.dstExists desc.digest = .ok true ∧
        ∃ h, opts.SkippedCopyHandler = some h ∧ h desc = some e ∧
          (preHandler env opts t desc).1.doneSet =
            desc.digest :: t.doneSet)) := by
  constructor
  · intro e he
    unfold postHandler at he ⊢
    cases hb : (postBody env opts t desc).2.2 <;> simp only [hb] at he ⊢
    · simp at he
    · exact postBody_doneSet env opts t desc
  · intro e he
    by_cases hm : desc.digest ∈ t.entries
    · rw [preHandler_lose env opts t desc hm] at he
      simp at he
    · cases hdst : env.dstExists desc.digest with
      | error e2 =>
        rw [preHandler_dstErr env opts t desc e2 hm hdst] at he ⊢
        exact Or.inl rfl
      | ok b =>
        cases b
        · cases hd : env.downEdges desc.digest with
          | error e2 =>
            rw [preHandler_downErr env opts t desc e2 hm hdst hd] at he ⊢
            exact Or.inl rfl
          | ok cs =>
            rw [preHandler_children env opts t desc cs hm hdst hd] at he
            simp at he
        · cases hs : opts.SkippedCopyHandler with
          | none =>
            rw [preHandler_exists_noHook env opts t desc hm hdst hs] at he
            simp at he
          | some h =>
            rw [preHandler_exists_hook env opts t desc h hm hdst hs] at he ⊢
            cases hd : h desc with
            | none => simp [hd] at he
            | some e2 =>
              simp only [hd] at he
              cases he
              exact Or.inr ⟨rfl, h, rfl, hd, rfl⟩

/-- Witness for the amended C1: a failing push on a leaf node leaves the
done set empty. -/
theorem c1_witness :
    (postHandler envPushFails {} Tracker.init descA).1.doneSet = [] :=
  (c1_no_done_on_error envPushFails {} Tracker.init descA).1 .cancelled rfl

/-- C4: when the digest already exists at the destination, the winning
pre-handler never fetches or pushes it, enumerates no children (the whole
subtree is skipped), closes its completion signal, and invokes the optional
skipped hook exactly once. -/
theorem c4_dst_exists_skip (env : Env) (opts : CopyGraphOptions)
    (t : Tracker) (desc : Descriptor)
    (hm : desc.digest ∉ t.entries)
    (he : env.dstExists desc.digest = .ok true) :
    desc.digest ∈ (preHandler env opts t desc).1.doneSet ∧
    (∀ s dg, Event.fetch s dg ∉ (preHandler env opts t desc).2.1) ∧
    (∀ dg, Event.push dg ∉ (preHandler env opts t desc).2.1) ∧
    (∀ dg, Event.downEdges dg ∉ (preHandler env opts t desc).2.1) ∧
    (∀ cs, (preHandler env opts t desc).2.2 ≠ PreResult.children cs) ∧
    (preHandler env opts t desc).2.1.count (Event.skippedHook desc.digest) =
      (if opts.SkippedCopyHandler.isSome then 1 else 0) ∧
    (opts.SkippedCopyHandler = none →
      (preHandler env opts t desc).2.2 = PreResult.skip) ∧
    (∀ h, opts.SkippedCopyHandler = some h → h desc = none →
      (preHandler env opts t desc).2.2 = PreResult.skip) := by
  cases hs : opts.SkippedCopyHandler with
  | none =>
    rw [preHandler_exists_noHook env opts t desc hm he hs]
    refine ⟨by simp, by simp, by simp, by simp, by simp, ?_, by simp, by simp⟩
    simp [List.count_cons, List.count_nil]
  | some h =>
    rw [preHandler_exists_hook env opts t desc h hm he hs]
    refine ⟨by simp, ?_, ?_, ?_, ?_, ?_, by simp, fun h2 hh2 hd => ?_⟩
    · intro s dg; cases hd : h desc <;> simp [hd]
    · intro dg; cases hd : h desc <;> simp [hd]
    · intro dg; cases hd : h desc <;> simp [hd]
    · intro cs; cases hd : h desc <;> simp [hd]
    · simp [List.count_cons, List.count_nil]
    · cases hh2; simp [hd]

/-- Witness for C4 at a concrete input: everything already at the
destination, all hooks present. -/
theorem c4_witness :
    "sha256:mmm" ∈
      (preHandler envDstHas optsAllHooks Tracker.init descM).1.doneSet :=
  (c4_dst_exists_skip envDstHas optsAllHooks Tracker.init descM
    (by decide) rfl).1

/-- On a fetch error `copyNode` records only the fetch; otherwise it
records fetch, push and the deferred stream close. -/
theorem copyNode_trace_shape (env : Env) (side : StoreId) (desc : Descriptor) :
    ∀ e ∈ (copyNode env side desc).1,
      e = Event.fetch side desc.digest ∨ e = Event.push desc.digest ∨
      e = Event.closeStream desc.digest := by
  intro e he
  unfold copyNode at he
  cases hf : env.fetch side desc.digest <;> simp [hf] at he <;> tauto

/-- On success `copyNode` performed exactly fetch, push, stream close. -/
theorem copyNode_success_trace (env : Env) (side : StoreId) (desc : Descriptor)
    (h : (copyNode env side desc).2 = none) :
    (copyNode env side desc).1 = [Event.fetch side desc.digest,
      Event.push desc.digest, Event.closeStream desc.digest] := by
  unfold copyNode at h ⊢
  cases hf : env.fetch side desc.digest <;> simp [hf] at h ⊢

/-- Exhaustive case analysis of `handleCopyNode`: either the pre-copy hook
fails before any transfer, or the hook phase passes (contributing `ev0` to
the trace) and the node goes through `copyNode`, possibly followed by the
post-copy hook. -/
theorem handleCopyNode_cases (env : Env) (opts : CopyGraphOptions)
    (side : StoreId) (desc : Descriptor) :
    (∃ h e, opts.PreCopyHandler = some h ∧ h desc = some e ∧
      handleCopyNode env opts side desc =
        ([Event.preCopyHook desc.digest], some e)) ∨
    (∃ ev0, (ev0 = [] ∧ opts.PreCopyHandler = none ∨
        ∃ h, opts.PreCopyHandler = some h ∧ h desc = none ∧
          ev0 = [Event.preCopyHook desc.digest]) ∧
      ((∃ e, (copyNode env side desc).2 = some e ∧
          handleCopyNode env opts side desc =
            (ev0 ++ (copyNode env side desc).1, some e)) ∨
        ((copyNode env side desc).2 = none ∧
          (opts.PostCopyHandler = none ∧
            handleCopyNode env opts side desc =
              (ev0 ++ (copyNode env side desc).1, none) ∨
            ∃ h2, opts.PostCopyHandler = some h2 ∧
              handleCopyNode env opts side desc =
                (ev0 ++ (copyNode env side desc).1 ++
                  [Event.postCopyHook desc.digest], h2 desc))))) := by
  cases hp : opts.PreCopyHandler with
  | some h =>
    cases hd : h desc with
    | some e =>
      exact Or.inl ⟨h, e, rfl, hd, by simp [handleCopyNode, hp, hd]⟩
    | none =>
      refine Or.inr ⟨[Event.preCopyHook desc.digest],
        Or.inr ⟨h, rfl, hd, rfl⟩, ?_⟩
      cases hc : (copyNode env side desc).2 with
      | some e =>
        exact Or.inl ⟨e, rfl, by
          simp [handleCopyNode, hp, hd, handleCopyNode.handleCopyNodeRest, hc]⟩
      | none =>
        refine Or.inr ⟨rfl, ?_⟩
        cases hpo : opts.PostCopyHandler with
        | none =>
          exact Or.inl ⟨rfl, by
            simp [handleCopyNode, hp, hd, handleCopyNode.handleCopyNodeRest,
              hc, hpo]⟩
        | some h2 =>
          exact Or.inr ⟨h2, rfl, by
            simp [handleCopyNode, hp, hd, handleCopyNode.handleCopyNodeRest,
              hc, hpo]⟩
  | none =>
    refine Or.inr ⟨[], Or.inl ⟨rfl, rfl⟩, ?_⟩
    cases hc : (copyNode env side desc).2 with
    | some e =>
      exact Or.inl ⟨e, rfl, by
        simp [handleCopyNode, hp, handleCopyNode.handleCopyNodeRest, hc]⟩
    | none =>
      refine Or.inr ⟨rfl, ?_⟩
      cases hpo : opts.PostCopyHandler with
      | none =>
        exact Or.inl ⟨rfl, by
          simp [handleCopyNode, hp, handleCopyNode.handleCopyNodeRest, hc, hpo]⟩
      | some h2 =>
        exact Or.inr ⟨h2, rfl, by
          simp [handleCopyNode, hp, handleCopyNode.handleCopyNodeRest, hc, hpo]⟩

/-- The trace of `handleCopyNode` holds only pre-copy hook, fetch, push,
stream close and post-copy hook events for this very descriptor. -/
theorem handleCopyNode_trace_shape (env : Env) (opts : CopyGraphOptions)
    (side : StoreId) (desc : Descriptor) :
    ∀ e ∈ (handleCopyNode env opts side desc).1,
      e = Event.preCopyHook desc.digest ∨ e = Event.postCopyHook desc.digest ∨
      e = Event.fetch side desc.digest ∨ e = Event.push desc.digest ∨
      e = Event.closeStream desc.digest := by
  intro e he
  have hshape := copyNode_trace_shape env side desc
  rcases handleCopyNode_cases env opts side desc with
    ⟨h, e2, hp, hd, heq⟩ | ⟨ev0, hev0, hrest⟩
  · rw [heq] at he; simp at he; tauto
  · have hmem0 : ∀ x ∈ ev0, x = Event.preCopyHook desc.digest := by
      rcases hev0 with ⟨h1, _⟩ | ⟨h1, _, _, h4⟩
      · subst h1; simp
      · subst h4; simp
    rcases hrest with ⟨e2, hc, heq⟩ | ⟨hc, hpost⟩
    · rw [heq] at he
      simp only [List.mem_append] at he
      rcases he with he | he
      · exact Or.inl (hmem0 e he)
      · rcases hshape e he with h | h | h <;> tauto
    · rcases hpost with ⟨_, heq⟩ | ⟨h2, _, heq⟩
      · rw [heq] at he
        simp only [List.mem_append] at he
        rcases he with he | he
        · exact Or.inl (hmem0 e he)
        · rcases hshape e he with h | h | h <;> tauto
      · rw [heq] at he
        simp only [List.mem_append, List.mem_singleton] at he
        rcases he with (he | he) | he
        · exact Or.inl (hmem0 e he)
        · rcases hshape e he with h | h | h <;> tauto
        · tauto

/-- C8: for a single transferred node, hooks run in order
pre-copy → transfer → post-copy: a pre-copy hook failure aborts the node
before any fetch or push; when the pre-copy hook is configured it is the
first event; the post-copy hook event appears only after a successful
transfer and after the push; and the skipped hook is mutually exclusive
with the pre/post-copy pair (`handleCopyNode` never fires the skipped
hook, the pre-handler never fires the pre/post-copy hooks). -/
theorem c8_hook_order (env : Env) (opts : CopyGraphOptions) (side : StoreId)
    (desc : Descriptor) :
    (∀ h e, opts.PreCopyHandler = some h → h desc = some e →
      handleCopyNode env opts side desc =
        ([Event.preCopyHook desc.digest], some e)) ∧
    (∀ h, opts.PreCopyHandler = some h →
      (handleCopyNode env opts side desc).1.head? =
        some (Event.preCopyHook desc.digest)) ∧
    (Event.postCopyHook desc.digest ∈ (handleCopyNode env opts side desc).1 →
      (copyNode env side desc).2 = none ∧
      ∃ pre, (handleCopyNode env opts side desc).1 =
          pre ++ [Event.postCopyHook desc.digest] ∧
        Event.push desc.digest ∈ pre) ∧
    (∀ dg, Event.skippedHook dg ∉ (handleCopyNode env opts side desc).1) ∧
    (∀ t dg, Event.preCopyHook dg ∉ (preHandler env opts t desc).2.1 ∧
      Event.postCopyHook dg ∉ (preHandler env opts t desc).2.1) := by
  refine ⟨?_, ?_, ?_, ?_, ?_⟩
  · intro h e hp hd
    simp [handleCopyNode, hp, hd]
  · intro h hp
    rcases handleCopyNode_cases env opts side desc with
      ⟨h2, e2, hp2, hd2, heq⟩ | ⟨ev0, hev0, hrest⟩
    · rw [heq]; rfl
    · have hev0eq : ev0 = [Event.preCopyHook desc.digest] := by
        rcases hev0 with ⟨_, h2⟩ | ⟨_, _, _, h4⟩
        · rw [hp] at h2; cases h2
        · exact h4
      subst hev0eq
      rcases hrest with ⟨e2, hc, heq⟩ | ⟨hc, ⟨_, heq⟩ | ⟨h2, _, heq⟩⟩ <;>
        rw [heq] <;> rfl
  · intro hmem
    rcases handleCopyNode_cases env opts side desc with
      ⟨h2, e2, hp2, hd2, heq⟩ | ⟨ev0, hev0, hrest⟩
    · rw [heq] at hmem; simp at hmem
    · have hmem0 : Event.postCopyHook desc.digest ∉ ev0 := by
        rcases hev0 with ⟨h1, _⟩ | ⟨_, _, _, h4⟩
        · subst h1; simp
        · subst h4; simp
      rcases hrest with ⟨e2, hc, heq⟩ | ⟨hc, hpost⟩
      · rw [heq] at hmem
        simp only [List.mem_append] at hmem
        rcases hmem with hmem | hmem
        · exact absurd hmem hmem0
        · rcases copyNode_trace_shape env side desc _ hmem with h | h | h <;>
            simp at h
      · rcases hpost with ⟨_, heq⟩ | ⟨h2, _, heq⟩
        · rw [heq] at hmem
          simp only [List.mem_append] at hmem
          rcases hmem with hmem | hmem
          · exact absurd hmem hmem0
          · rcases copyNode_trace_shape env side desc _ hmem with h | h | h <;>
              simp at h
        · refine ⟨hc, ev0 ++ (copyNode env side desc).1, by rw [heq], ?_⟩
          rw [copyNode_success_trace env side desc hc]
          simp
  · intro dg hmem
    rcases handleCopyNode_trace_shape env opts side desc _ hmem with
      h | h | h | h | h <;> simp at h
  · intro t dg
    refine ⟨?_, ?_⟩ <;>
    · by_cases hm : desc.digest ∈ t.entries
      · rw [preHandler_lose env opts t desc hm]; simp
      · cases hdst : env.dstExists desc.digest with
        | error e2 => rw [preHandler_dstErr env opts t desc e2 hm hdst]; simp
        | ok b =>
          cases b
          · cases hd : env.downEdges desc.digest with
            | error e2 =>
              rw [preHandler_downErr env opts t desc e2 hm hdst hd]; simp
            | ok cs =>
              rw [preHandler_children env opts t desc cs hm hdst hd]; simp
          · cases hs : opts.SkippedCopyHandler with
            | none =>
              rw [preHandler_exists_noHook env opts t desc hm hdst hs]; simp
            | some h =>
              rw [preHandler_exists_hook env opts t desc h hm hdst hs]; simp

/-- Witness for C8 at a concrete input: with all hooks configured the first
recorded event of `handleCopyNode` is the pre-copy hook. -/
theorem c8_witness :
    (handleCopyNode envOk optsAllHooks .source descA).1.head? =
      some (Event.preCopyHook "sha256:aaa") :=
  (c8_hook_order envOk optsAllHooks .source descA).2.1 (fun _ => none) rfl

/-- Branch lemma: an uncommitted down edge makes the wait loop fail at once
with the internal-invariant error. -/
theorem waitForChildren_cons_uncommitted (env : Env) (p : String)
    (t : Tracker) (c : Descriptor) (rest : List Descriptor)
    (hm : c.digest ∉ t.entries) :
    waitForChildren env p t (c :: rest) =
      ({ t with entries := c.digest :: t.entries },
        [Event.tryCommit c.digest true],
        some (.downEdgeNotCommitted p c.digest)) := by
  unfold waitForChildren Tracker.tryCommit
  simp [hm]

/-- Branch lemma: a committed down edge whose wait is cut short by context
cancellation aborts the loop with the cancellation error. -/
theorem waitForChildren_cons_wait_err (env : Env) (p : String) (t : Tracker)
    (c : Descriptor) (rest : List Descriptor) (e : Err)
    (hm : c.digest ∈ t.entries) (hw : env.wait c.digest = some e) :
    waitForChildren env p t (c :: rest) =
      (t, [Event.tryCommit c.digest false], some e) := by
  unfold waitForChildren Tracker.tryCommit
  simp [hm, hw]

/-- Branch lemma: a committed down edge whose completion signal fires lets
the loop move to the remaining children. -/
theorem waitForChildren_cons_wait_ok (env : Env) (p : String) (t : Tracker)
    (c : Descriptor) (rest : List Descriptor)
    (hm : c.digest ∈ t.entries) (hw : env.wait c.digest = none) :
    waitForChildren env p t (c :: rest) =
      ((waitForChildren env p t rest).1,
        Event.tryCommit c.digest false :: Event.waitDone c.digest ::
          (waitForChildren env p t rest).2.1,
        (waitForChildren env p t rest).2.2) := by
  conv_lhs => rw [waitForChildren]
  simp [Tracker.tryCommit, hm, hw]

/-- The wait loop records only `tryCommit` and `waitDone` events. -/
theorem waitForChildren_trace_shape (env : Env) (p : String) :
    ∀ (cs : List Descriptor) (t : Tracker),
      ∀ e ∈ (waitForChildren env p t cs).2.1,
        (∃ dg b, e = Event.tryCommit dg b) ∨ ∃ dg, e = Event.waitDone dg := by
  intro cs
  induction cs with
  | nil => intro t e he; cases he
  | cons c0 rest ih =>
    intro t e he
    by_cases hm : c0.digest ∈ t.entries
    · cases hw : env.wait c0.digest with
      | some e2 =>
        rw [waitForChildren_cons_wait_err env p t c0 rest e2 hm hw] at he
        simp at he
        exact Or.inl ⟨c0.digest, false, he⟩
      | none =>
        rw [waitForChildren_cons_wait_ok env p t c0 rest hm hw] at he
        simp only [List.mem_cons] at he
        rcases he with he | he | he
        · exact Or.inl ⟨c0.digest, false, he⟩
        · exact Or.inr ⟨c0.digest, he⟩
        · exact ih t e he
    · rw [waitForChildren_cons_uncommitted env p t c0 rest hm] at he
      simp at he
      exact Or.inl ⟨c0.digest, true, he⟩

/-- When the wait loop returns without error, every child's completion
signal was observed (a `waitDone` event was recorded for it and the
`select` resolved with the channel, not cancellation). -/
theorem waitForChildren_success (env : Env) (p : String) :
    ∀ (cs : List Descriptor) (t : Tracker),
      (waitForChildren env p t cs).2.2 = none →
      ∀ c ∈ cs, Event.waitDone c.digest ∈ (waitForChildren env p t cs).2.1 ∧
        env.wait c.digest = none := by
  intro cs
  induction cs with
  | nil => intro t _ c hc; cases hc
  | cons c0 rest ih =>
    intro t hnone c hc
    by_cases hm : c0.digest ∈ t.entries
    · cases hw : env.wait c0.digest with
      | some e2 =>
        rw [waitForChildren_cons_wait_err env p t c0 rest e2 hm hw] at hnone
        simp at hnone
      | none =>
        rw [waitForChildren_cons_wait_ok env p t c0 rest hm hw] at hnone ⊢
        simp only at hnone
        rcases List.mem_cons.mp hc with rfl | hc2
        · exact ⟨by simp, hw⟩
        · exact ⟨by simp [(ih t hnone c hc2).1], (ih t hnone c hc2).2⟩
    · rw [waitForChildren_cons_uncommitted env p t c0 rest hm] at hnone
      simp at hnone

/-- When every enumerated child already holds a tracker entry, the wait
loop never takes the internal-invariant error branch: no winning
`TryCommit` happens, and the loop either succeeds or returns the outcome of
some child's cancelled wait. -/
theorem waitForChildren_all_committed (env : Env) (p : String) :
    ∀ (cs : List Descriptor) (t : Tracker),
      (∀ c ∈ cs, c.digest ∈ t.entries) →
      (∀ dg, Event.tryCommit dg true ∉ (waitForChildren env p t cs).2.1) ∧
      ((waitForChildren env p t cs).2.2 = none ∨
        ∃ c ∈ cs, (waitForChildren env p t cs).2.2 = env.wait c.digest) := by
  intro cs
  induction cs with
  | nil =>
    intro t _
    refine ⟨fun dg h => ?_, Or.inl rfl⟩
    simp [waitForChildren] at h
  | cons c0 rest ih =>
    intro t hall
    have hm : c0.digest ∈ t.entries := hall c0 (by simp)
    cases hw : env.wait c0.digest with
    | some e2 =>
      rw [waitForChildren_cons_wait_err env p t c0 rest e2 hm hw]
      refine ⟨fun dg h => by simp at h, Or.inr ⟨c0, by simp, by simp [hw]⟩⟩
    | none =>
      have hrest := ih t (fun c hc => hall c (by simp [hc]))
      rw [waitForChildren_cons_wait_ok env p t c0 rest hm hw]
      constructor
      · intro dg h
        simp only [List.mem_cons] at h
        rcases h with h | h | h
        · simp at h
        · simp at h
        · exact hrest.1 dg h
      · rcases hrest.2 with h | ⟨c2, hc2, h⟩
        · exact Or.inl h
        · exact Or.inr ⟨c2, by simp [hc2], h⟩

/-- Branch lemma: the cache existence check fails. -/
theorem postBody_cacheErr (env : Env) (opts : CopyGraphOptions) (t : Tracker)
    (desc : Descriptor) (e : Err)
    (hc : env.cacheExists desc.digest = .error e) :
    postBody env opts t desc = (t, [Event.cacheExists desc.digest], some e) := by
  simp [postBody, hc]

/-- Branch lemma: a digest absent from the cache is a leaf and is copied
straight from the true source. -/
theorem postBody_leaf (env : Env) (opts : CopyGraphOptions) (t : Tracker)
    (desc : Descriptor) (hc : env.cacheExists desc.digest = .ok false) :
    postBody env opts t desc =
      (t, Event.cacheExists desc.digest ::
        (handleCopyNode env opts .source desc).1,
        (handleCopyNode env opts .source desc).2) := by
  simp [postBody, hc]

/-- Branch lemma: a cached digest whose down-edge enumeration fails. -/
theorem postBody_downErr (env : Env) (opts : CopyGraphOptions) (t : Tracker)
    (desc : Descriptor) (e : Err)
    (hc : env.cacheExists desc.digest = .ok true)
    (hd : env.downEdges desc.digest = .error e) :
    postBody env opts t desc =
      (t, [Event.cacheExists desc.digest, Event.downEdges desc.digest],
        some e) := by
  simp [postBody, hc, hd]

/-- Branch lemma: a cached digest whose wait loop fails. -/
theorem postBody_waitErr (env : Env) (opts : CopyGraphOptions) (t : Tracker)
    (desc : Descriptor) (cs : List Descriptor) (e : Err)
    (hc : env.cacheExists desc.digest = .ok true)
    (hd : env.downEdges desc.digest = .ok cs)
    (hw : (waitForChildren env desc.digest t cs).2.2 = some e) :
    postBody env opts t desc =
      ((waitForChildren env desc.digest t cs).1,
        Event.cacheExists desc.digest :: Event.downEdges desc.digest ::
          (waitForChildren env desc.digest t cs).2.1, some e) := by
  simp [postBody, hc, hd, hw]

/-- Branch lemma: a cached digest whose children all completed goes through
`handleCopyNode`, reading from the cache. -/
theorem postBody_nonleaf (env : Env) (opts : CopyGraphOptions) (t : Tracker)
    (desc : Descriptor) (cs : List Descriptor)
    (hc : env.cacheExists desc.digest = .ok true)
    (hd : env.downEdges desc.digest = .ok cs)
    (hw : (waitForChildren env desc.digest t cs).2.2 = none) :
    postBody env opts t desc =
      ((waitForChildren env desc.digest t cs).1,
        Event.cacheExists desc.digest :: Event.downEdges desc.digest ::
          ((waitForChildren env desc.digest t cs).2.1 ++
            (handleCopyNode env opts .cache desc).1),
        (handleCopyNode env opts .cache desc).2) := by
  simp [postBody, hc, hd, hw]

/-- On a body error the deferred block does not run: the post-handler
returns the body's tracker, trace and error unchanged. -/
theorem postHandler_err (env : Env) (opts : CopyGraphOptions) (t : Tracker)
    (desc : Descriptor) (e : Err)
    (hb : (postBody env opts t desc).2.2 = some e) :
    postHandler env opts t desc =
      ((postBody env opts t desc).1, (postBody env opts t desc).2.1,
        some e) := by
  simp [postHandler, hb]

/-- On body success the deferred block re-`TryCommit`s the descriptor and
closes its completion channel. -/
theorem postHandler_ok (env : Env) (opts : CopyGraphOptions) (t : Tracker)
    (desc : Descriptor) (hb : (postBody env opts t desc).2.2 = none) :
    postHandler env opts t desc =
      ((((postBody env opts t desc).1.tryCommit desc.digest).1).markDone
          desc.digest,
        (postBody env opts t desc).2.1 ++
          [Event.tryCommit desc.digest
            ((postBody env opts t desc).1.tryCommit desc.digest).2,
          Event.closeDone desc.digest], none) := by
  simp [postHandler, hb]

/-- When `handleCopyNode` succeeds, the node really was fetched from the
given side and pushed to the destination. -/
theorem handleCopyNode_success_transfer (env : Env) (opts : CopyGraphOptions)
    (side : StoreId) (desc : Descriptor)
    (h : (handleCopyNode env opts side desc).2 = none) :
    Event.fetch side desc.digest ∈ (handleCopyNode env opts side desc).1 ∧
    Event.push desc.digest ∈ (handleCopyNode env opts side desc).1 := by
  rcases handleCopyNode_cases env opts side desc with
    ⟨h2, e2, hp2, hd2, heq⟩ | ⟨ev0, hev0, hrest⟩
  · rw [heq] at h; simp at h
  · rcases hrest with ⟨e2, hc, heq⟩ | ⟨hc, hpost⟩
    · rw [heq] at h; simp at h
    · have hct := copyNode_success_trace env side desc hc
      rcases hpost with ⟨_, heq⟩ | ⟨h2, _, heq⟩ <;> rw [heq, hct] <;> simp

/-- C6: in the post-handler a digest absent from the cache is transferred
by fetching from the true source, while a cached digest is transferred by
reading from the cache and never from the true source; in both cases the
node is pushed to the destination and, on success, its tracker entry is
marked done. -/
theorem c6_leaf_source_nonleaf_cache (env : Env) (opts : CopyGraphOptions)
    (t : Tracker) (desc : Descriptor) :
    (env.cacheExists desc.digest = .ok false →
      (postHandler env opts t desc).2.2 = none →
      Event.fetch .source desc.digest ∈ (postHandler env opts t desc).2.1 ∧
      Event.push desc.digest ∈ (postHandler env opts t desc).2.1 ∧
      (∀ dg, Event.fetch .cache dg ∉ (postHandler env opts t desc).2.1) ∧
      desc.digest ∈ (postHandler env opts t desc).1.doneSet) ∧
    (env.cacheExists desc.digest = .ok true →
      (postHandler env opts t desc).2.2 = none →
      Event.fetch .cache desc.digest ∈ (postHandler env opts t desc).2.1 ∧
      Event.push desc.digest ∈ (postHandler env opts t desc).2.1 ∧
      (∀ dg, Event.fetch .source dg ∉ (postHandler env opts t desc).2.1) ∧
      desc.digest ∈ (postHandler env opts t desc).1.doneSet) := by
  constructor
  · intro hc hres
    cases hhc : (handleCopyNode env opts .source desc).2 with
    | some e =>
      have hb : (postBody env opts t desc).2.2 = some e := by
        simp [postBody_leaf env opts t desc hc, hhc]
      rw [postHandler_err env opts t desc e hb] at hres
      simp at hres
    | none =>
      have hb : (postBody env opts t desc).2.2 = none := by
        simp [postBody_leaf env opts t desc hc, hhc]
      have htransfer := handleCopyNode_success_transfer env opts .source desc hhc
      have hshape := handleCopyNode_trace_shape env opts .source desc
      rw [postHandler_ok env opts t desc hb,
        postBody_leaf env opts t desc hc]
      refine ⟨by simp [htransfer.1], by simp [htransfer.2], ?_,
        by simp [Tracker.markDone]⟩
      intro dg hmem
      simp only [List.mem_append, List.mem_cons] at hmem
      rcases hmem with (hmem | hmem) | hmem
      · simp at hmem
      · rcases hshape _ hmem with h | h | h | h | h <;> simp at h
      · simp at hmem
  · intro hc hres
    cases hd : env.downEdges desc.digest with
    | error e =>
      have hb : (postBody env opts t desc).2.2 = some e := by
        simp [postBody_downErr env opts t desc e hc hd]
      rw [postHandler_err env opts t desc e hb] at hres
      simp at hres
    | ok cs =>
      cases hw : (waitForChildren env desc.digest t cs).2.2 with
      | some e =>
        have hb : (postBody env opts t desc).2.2 = some e := by
          simp [postBody_waitErr env opts t desc cs e hc hd hw]
        rw [postHandler_err env opts t desc e hb] at hres
        simp at hres
      | none =>
        cases hhc : (handleCopyNode env opts .cache desc).2 with
        | some e =>
          have hb : (postBody env opts t desc).2.2 = some e := by
            simp [postBody_nonleaf env opts t desc cs hc hd hw, hhc]
          rw [postHandler_err env opts t desc e hb] at hres
          simp at hres
        | none =>
          have hb : (postBody env opts t desc).2.2 = none := by
            simp [postBody_nonleaf env opts t desc cs hc hd hw, hhc]
          have htransfer :=
            handleCopyNode_success_transfer env opts .cache desc hhc
          have hshape := handleCopyNode_trace_shape env opts .cache desc
          have hwshape := waitForChildren_trace_shape env desc.digest cs t
          rw [postHandler_ok env opts t desc hb,
            postBody_nonleaf env opts t desc cs hc hd hw]
          refine ⟨by simp [htransfer.1], by simp [htransfer.2], ?_,
            by simp [Tracker.markDone]⟩
          intro dg hmem
          simp only [List.mem_append, List.mem_cons] at hmem
          rcases hmem with (hmem | hmem | hmem | hmem) | hmem
          · simp at hmem
          · simp at hmem
          · rcases hwshape _ hmem with ⟨dg2, b2, h⟩ | ⟨dg2, h⟩ <;> simp at h
          · rcases hshape _ hmem with h | h | h | h | h <;> simp at h
          · simp at hmem

/-- Witness for C6 at a concrete input: copying the cached manifest `descM`
(children `descA`, `descB` already committed and done) reads from the cache
and ends marked done. -/
theorem c6_witness :
    Event.fetch .cache "sha256:mmm" ∈
      (postHandler envOk {}
        { entries := ["sha256:aaa", "sha256:bbb"],
          doneSet := ["sha256:aaa", "sha256:bbb"] } descM).2.1 ∧
    "sha256:mmm" ∈
      (postHandler envOk {}
        { entries := ["sha256:aaa", "sha256:bbb"],
          doneSet := ["sha256:aaa", "sha256:bbb"] } descM).1.doneSet :=
  ⟨((c6_leaf_source_nonleaf_cache envOk {}
      { entries := ["sha256:aaa", "sha256:bbb"],
        doneSet := ["sha256:aaa", "sha256:bbb"] } descM).2 rfl (by decide)).1,
    ((c6_leaf_source_nonleaf_cache envOk {}
      { entries := ["sha256:aaa", "sha256:bbb"],
        doneSet := ["sha256:aaa", "sha256:bbb"] } descM).2 rfl (by decide)).2.2.2⟩

/-- C2: for a non-leaf node (bytes present in the cache at post-visit
time), the push to the destination happens only after the completion
signal of every enumerated child has been observed: the trace splits into
a push-free prefix holding a `waitDone` for every child (each wait having
resolved with the completion channel, not cancellation) followed by the
transfer. -/
theorem c2_postorder_push (env : Env) (opts : CopyGraphOptions) (t : Tracker)
    (desc : Descriptor) (cs : List Descriptor)
    (hc : env.cacheExists desc.digest = .ok true)
    (hd : env.downEdges desc.digest = .ok cs)
    (hpush : Event.push desc.digest ∈ (postHandler env opts t desc).2.1) :
    ∃ pre post, (postHandler env opts t desc).2.1 = pre ++ post ∧
      (∀ c ∈ cs, Event.waitDone c.digest ∈ pre ∧ env.wait c.digest = none) ∧
      (∀ dg, Event.push dg ∉ pre) := by
  cases hw : (waitForChildren env desc.digest t cs).2.2 with
  | some e =>
    exfalso
    have hb : (postBody env opts t desc).2.2 = some e := by
      simp [postBody_waitErr env opts t desc cs e hc hd hw]
    rw [postHandler_err env opts t desc e hb,
      postBody_waitErr env opts t desc cs e hc hd hw] at hpush
    simp only [List.mem_cons] at hpush
    rcases hpush with h | h | h
    · simp at h
    · simp at h
    · rcases waitForChildren_trace_shape env desc.digest cs t _ h with
        ⟨dg2, b2, h2⟩ | ⟨dg2, h2⟩ <;> simp at h2
  | none =>
    have hsucc := waitForChildren_success env desc.digest cs t hw
    have hprefix : ∀ dg, Event.push dg ∉
        Event.cacheExists desc.digest :: Event.downEdges desc.digest ::
          (waitForChildren env desc.digest t cs).2.1 := by
      intro dg hmem
      simp only [List.mem_cons] at hmem
      rcases hmem with h | h | h
      · simp at h
      · simp at h
      · rcases waitForChildren_trace_shape env desc.digest cs t _ h with
          ⟨dg2, b2, h2⟩ | ⟨dg2, h2⟩ <;> simp at h2
    have hwaits : ∀ c ∈ cs, Event.waitDone c.digest ∈
        Event.cacheExists desc.digest :: Event.downEdges desc.digest ::
          (waitForChildren env desc.digest t cs).2.1 ∧
        env.wait c.digest = none := by
      intro c hcmem
      exact ⟨by simp [(hsucc c hcmem).1], (hsucc c hcmem).2⟩
    cases hhc : (handleCopyNode env opts .cache desc).2 with
    | some e =>
      have hb : (postBody env opts t desc).2.2 = some e := by
        simp [postBody_nonleaf env opts t desc cs hc hd hw, hhc]
      rw [postHandler_err env opts t desc e hb,
        postBody_nonleaf env opts t desc cs hc hd hw]
      exact ⟨_, (handleCopyNode env opts .cache desc).1, by simp, hwaits,
        hprefix⟩
    | none =>
      have hb : (postBody env opts t desc).2.2 = none := by
        simp [postBody_nonleaf env opts t desc cs hc hd hw, hhc]
      rw [postHandler_ok env opts t desc hb,
        postBody_nonleaf env opts t desc cs hc hd hw]
      refine ⟨Event.cacheExists desc.digest :: Event.downEdges desc.digest ::
        (waitForChildren env desc.digest t cs).2.1,
        (handleCopyNode env opts .cache desc).1 ++
          [Event.tryCommit desc.digest
            (((waitForChildren env desc.digest t cs).1).tryCommit
              desc.digest).2,
          Event.closeDone desc.digest], by simp, hwaits, hprefix⟩

/-- Witness for C2 at a concrete input: the cached manifest `descM` with
committed children `descA`, `descB`. -/
theorem c2_witness :
    ∃ pre post,
      (postHandler envOk {}
        { entries := ["sha256:aaa", "sha256:bbb"],
          doneSet := ["sha256:aaa", "sha256:bbb"] } descM).2.1 =
        pre ++ post ∧
      (∀ c ∈ [descA, descB], Event.waitDone c.digest ∈ pre ∧
        envOk.wait c.digest = none) ∧
      (∀ dg, Event.push dg ∉ pre) :=
  c2_postorder_push envOk {}
    { entries := ["sha256:aaa", "sha256:bbb"],
      doneSet := ["sha256:aaa", "sha256:bbb"] } descM [descA, descB]
    rfl rfl (by decide)

/-- A winning defensive `TryCommit` anywhere in the wait loop forces the
internal-invariant error for that very child: as soon as the loop finds an
uncommitted down edge it stops with `downEdgeNotCommitted`. -/
theorem waitForChildren_win_fatal (env : Env) (p : String) :
    ∀ (cs : List Descriptor) (t : Tracker) (dg : String),
      Event.tryCommit dg true ∈ (waitForChildren env p t cs).2.1 →
      (waitForChildren env p t cs).2.2 =
        some (.downEdgeNotCommitted p dg) := by
  intro cs
  induction cs with
  | nil => intro t dg h; simp [waitForChildren] at h
  | cons c0 rest ih =>
    intro t dg h
    by_cases hm : c0.digest ∈ t.entries
    · cases hw : env.wait c0.digest with
      | some e =>
        rw [waitForChildren_cons_wait_err env p t c0 rest e hm hw] at h
        simp at h
      | none =>
        rw [waitForChildren_cons_wait_ok env p t c0 rest hm hw] at h ⊢
        simp only [List.mem_cons] at h
        rcases h with h | h | h
        · simp at h
        · simp at h
        · exact ih t dg h
    · rw [waitForChildren_cons_uncommitted env p t c0 rest hm] at h ⊢
      simp at h
      simp [h]

/-- When no wait is cancelled, any enumerated child lacking a tracker entry
makes the wait loop fail with `downEdgeNotCommitted` for some such child. -/
theorem waitForChildren_uncommitted_fatal (env : Env) (p : String) :
    ∀ (cs : List Descriptor) (t : Tracker),
      (∀ c ∈ cs, env.wait c.digest = none) →
      (∃ c ∈ cs, c.digest ∉ t.entries) →
      ∃ c ∈ cs, c.digest ∉ t.entries ∧
        (waitForChildren env p t cs).2.2 =
          some (.downEdgeNotCommitted p c.digest) := by
  intro cs
  induction cs with
  | nil => intro t _ h; simp at h
  | cons c0 rest ih =>
    intro t hwait hex
    by_cases hm : c0.digest ∈ t.entries
    · have hw : env.wait c0.digest = none := hwait c0 (by simp)
      have hex2 : ∃ c ∈ rest, c.digest ∉ t.entries := by
        rcases hex with ⟨c, hcmem, hc⟩
        rcases List.mem_cons.mp hcmem with rfl | hr
        · exact absurd hm hc
        · exact ⟨c, hr, hc⟩
      obtain ⟨c, hcmem, hc, hres⟩ :=
        ih t (fun c2 h2 => hwait c2 (by simp [h2])) hex2
      refine ⟨c, by simp [hcmem], hc, ?_⟩
      rw [waitForChildren_cons_wait_ok env p t c0 rest hm hw]
      exact hres
    · rw [waitForChildren_cons_uncommitted env p t c0 rest hm]
      exact ⟨c0, by simp, hm, rfl⟩

/-- C7: in the post-visit of a non-leaf node, any enumerated child found
uncommitted by the defensive `TryCommit` of the wait loop (a winning
`TryCommit` anywhere in the loop, not just at the first child) makes the
copy fail with the fatal internal-invariant error — equivalently, with no
cancellation, some enumerated child lacking an entry forces that error —
and when every enumerated child was already claimed (the scheduler
contract), that error branch is unreachable: the wait loop records no
winning `TryCommit` and either succeeds or merely propagates a cancelled
wait. -/
theorem c7_uncommitted_child_fatal (env : Env) (opts : CopyGraphOptions)
    (t : Tracker) (desc : Descriptor) (cs : List Descriptor) (p : String) :
    (∀ dg, env.cacheExists desc.digest = .ok true →
      env.downEdges desc.digest = .ok cs →
      Event.tryCommit dg true ∈ (waitForChildren env desc.digest t cs).2.1 →
      (postHandler env opts t desc).2.2 =
        some (.downEdgeNotCommitted desc.digest dg)) ∧
    (env.cacheExists desc.digest = .ok true →
      env.downEdges desc.digest = .ok cs →
      (∀ c ∈ cs, env.wait c.digest = none) →
      (∃ c ∈ cs, c.digest ∉ t.entries) →
      ∃ c ∈ cs, c.digest ∉ t.entries ∧
        (postHandler env opts t desc).2.2 =
          some (.downEdgeNotCommitted desc.digest c.digest)) ∧
    ((∀ c2 ∈ cs, c2.digest ∈ t.entries) →
      (∀ dg, Event.tryCommit dg true ∉ (waitForChildren env p t cs).2.1) ∧
      ((waitForChildren env p t cs).2.2 = none ∨
        ∃ c2 ∈ cs, (waitForChildren env p t cs).2.2 = env.wait c2.digest)) := by
  refine ⟨?_, ?_, waitForChildren_all_committed env p cs t⟩
  · intro dg hc hd hwin
    have hw := waitForChildren_win_fatal env desc.digest cs t dg hwin
    have hb : (postBody env opts t desc).2.2 =
        some (.downEdgeNotCommitted desc.digest dg) := by
      simp [postBody_waitErr env opts t desc cs _ hc hd hw]
    rw [postHandler_err env opts t desc _ hb]
  · intro hc hd hwait hex
    obtain ⟨c, hcmem, hcn, hres⟩ :=
      waitForChildren_uncommitted_fatal env desc.digest cs t hwait hex
    refine ⟨c, hcmem, hcn, ?_⟩
    have hb : (postBody env opts t desc).2.2 =
        some (.downEdgeNotCommitted desc.digest c.digest) := by
      simp [postBody_waitErr env opts t desc cs _ hc hd hres]
    rw [postHandler_err env opts t desc _ hb]

/-- Witness for C7 at a concrete input: the cached manifest `descM` whose
second (non-head) child `descB` was never committed, while the first child
`descA` is committed and done. -/
theorem c7_witness :
    (postHandler envOk {}
      { entries := ["sha256:aaa"], doneSet := ["sha256:aaa"] } descM).2.2 =
      some (.downEdgeNotCommitted "sha256:mmm" "sha256:bbb") :=
  (c7_uncommitted_child_fatal envOk {}
    { entries := ["sha256:aaa"], doneSet := ["sha256:aaa"] } descM
    [descA, descB] "").1 "sha256:bbb" rfl rfl (by decide)

/-- Number of winning `TryCommit` calls for a digest recorded in a trace. -/
def winCount (dg : String) (ev : List Event) : Nat :=
  ev.countP (fun e => decide (e = Event.tryCommit dg true))

/-- Unfolding lemma: the empty trace has no wins. -/
theorem winCount_nil (dg : String) : winCount dg [] = 0 := rfl

/-- Unfolding lemma for a cons cell. -/
theorem winCount_cons (dg : String) (e : Event) (ev : List Event) :
    winCount dg (e :: ev) =
      winCount dg ev + (if e = Event.tryCommit dg true then 1 else 0) := by
  simp [winCount, List.countP_cons]

/-- Win counts add over concatenated traces. -/
theorem winCount_append (dg : String) (ev1 ev2 : List Event) :
    winCount dg (ev1 ++ ev2) = winCount dg ev1 + winCount dg ev2 := by
  simp [winCount, List.countP_append]

/-- Invariant of one tracker-threading step: a digest that already holds an
entry is never won again, each step wins a digest at most once, and a won
(or already held) digest holds an entry afterwards. -/
def TrackStep (t t2 : Tracker) (ev : List Event) : Prop :=
  ∀ dg, (dg ∈ t.entries → winCount dg ev = 0) ∧
    winCount dg ev ≤ 1 ∧
    ((dg ∈ t.entries ∨ 1 ≤ winCount dg ev) → dg ∈ t2.entries)

/-- `TrackStep` composes along sequential execution. -/
theorem TrackStep.comp {t1 t2 t3 : Tracker} {ev1 ev2 : List Event}
    (h1 : TrackStep t1 t2 ev1) (h2 : TrackStep t2 t3 ev2) :
    TrackStep t1 t3 (ev1 ++ ev2) := by
  intro dg
  obtain ⟨a1, b1, c1⟩ := h1 dg
  obtain ⟨a2, b2, c2⟩ := h2 dg
  refine ⟨?_, ?_, ?_⟩
  · intro hm
    rw [winCount_append, a1 hm, a2 (c1 (Or.inl hm))]
  · rw [winCount_append]
    by_cases hz : winCount dg ev1 = 0
    · rw [hz]; omega
    · have hw2 := a2 (c1 (Or.inr (by omega)))
      omega
  · intro h
    rcases h with hm | hcount
    · exact c2 (Or.inl (c1 (Or.inl hm)))
    · rw [winCount_append] at hcount
      by_cases hz : winCount dg ev1 = 0
      · exact c2 (Or.inr (by omega))
      · exact c2 (Or.inl (c1 (Or.inr (by omega))))

/-- A step that records no winning `TryCommit` and leaves the tracker's
entry set alone is a `TrackStep`. -/
theorem trackStep_of_noWins (t : Tracker) (ev : List Event)
    (h : ∀ dg, winCount dg ev = 0) : TrackStep t t ev := by
  intro dg
  refine ⟨fun _ => h dg, by rw [h dg]; omega, fun hm => ?_⟩
  rcases hm with hm | hc
  · exact hm
  · rw [h dg] at hc; omega

/-- A single `TryCommit` call is a `TrackStep`. -/
theorem trackStep_tryCommit (t : Tracker) (dg0 : String) :
    TrackStep t (t.tryCommit dg0).1
      [Event.tryCommit dg0 (t.tryCommit dg0).2] := by
  intro dg
  by_cases hm0 : dg0 ∈ t.entries
  · have h1 : t.tryCommit dg0 = (t, false) := by
      simp [Tracker.tryCommit, hm0]
    rw [h1]
    have hcount : winCount dg [Event.tryCommit dg0 false] = 0 := by
      simp [winCount_cons, winCount_nil]
    refine ⟨fun _ => hcount, by rw [hcount]; omega, fun hm => ?_⟩
    rcases hm with hm | hc
    · exact hm
    · rw [hcount] at hc; omega
  · have h1 : t.tryCommit dg0 = ({ t with entries := dg0 :: t.entries },
        true) := by
      simp [Tracker.tryCommit, hm0]
    rw [h1]
    by_cases hdg : dg0 = dg
    · subst hdg
      have hcount : winCount dg0 [Event.tryCommit dg0 true] = 1 := by
        simp [winCount_cons, winCount_nil]
      exact ⟨fun hm => absurd hm hm0, by rw [hcount], fun _ => by simp⟩
    · have hcount : winCount dg [Event.tryCommit dg0 true] = 0 := by
        simp [winCount_cons, winCount_nil, hdg]
      refine ⟨fun _ => hcount, by rw [hcount]; omega, fun hm => ?_⟩
      rcases hm with hm | hc
      · simp [hm]
      · rw [hcount] at hc; omega

/-- Closing a completion channel does not disturb the entry set, so a
`TrackStep` survives a final `markDone`. -/
theorem trackStep_markDone {t t2 : Tracker} {ev : List Event} (dg0 : String)
    (h : TrackStep t t2 ev) : TrackStep t (t2.markDone dg0) ev := by
  intro dg
  obtain ⟨a, b, c⟩ := h dg
  exact ⟨a, b, fun hm => by simpa [Tracker.markDone] using c hm⟩

/-- A winning `TryCommit` on a fresh digest followed by win-free effects is
a `TrackStep` into the enlarged tracker. -/
theorem trackStep_win (t : Tracker) (dg0 : String) (hm : dg0 ∉ t.entries)
    (tail : List Event) (htail : ∀ dg, winCount dg tail = 0) :
    TrackStep t { t with entries := dg0 :: t.entries }
      (Event.tryCommit dg0 true :: tail) := by
  have h1 := trackStep_tryCommit t dg0
  have h2 : t.tryCommit dg0 = ({ t with entries := dg0 :: t.entries },
      true) := by
    simp [Tracker.tryCommit, hm]
  rw [h2] at h1
  exact h1.comp (trackStep_of_noWins _ tail htail)

/-- `handleCopyNode` never touches the tracker: its trace has no wins. -/
theorem handleCopyNode_noWins (env : Env) (opts : CopyGraphOptions)
    (side : StoreId) (desc : Descriptor) :
    ∀ dg, winCount dg (handleCopyNode env opts side desc).1 = 0 := by
  intro dg
  refine List.countP_eq_zero.mpr ?_
  intro e he
  rcases handleCopyNode_trace_shape env opts side desc e he with
    h | h | h | h | h <;> subst h <;> simp

/-- The pre-handler is a `TrackStep`. -/
theorem preHandler_trackStep (env : Env) (opts : CopyGraphOptions)
    (t : Tracker) (desc : Descriptor) :
    TrackStep t (preHandler env opts t desc).1
      (preHandler env opts t desc).2.1 := by
  by_cases hm : desc.digest ∈ t.entries
  · rw [preHandler_lose env opts t desc hm]
    exact trackStep_of_noWins t _
      (fun dg => by simp [winCount_cons, winCount_nil])
  · cases hdst : env.dstExists desc.digest with
    | error e =>
      rw [preHandler_dstErr env opts t desc e hm hdst]
      exact trackStep_win t desc.digest hm [Event.dstExists desc.digest]
        (fun dg => by simp [winCount_cons, winCount_nil])
    | ok b =>
      cases b
      · cases hd : env.downEdges desc.digest with
        | error e =>
          rw [preHandler_downErr env opts t desc e hm hdst hd]
          exact trackStep_win t desc.digest hm
            [Event.dstExists desc.digest, Event.downEdges desc.digest]
            (fun dg => by simp [winCount_cons, winCount_nil])
        | ok cs =>
          rw [preHandler_children env opts t desc cs hm hdst hd]
          exact trackStep_win t desc.digest hm
            [Event.dstExists desc.digest, Event.downEdges desc.digest]
            (fun dg => by simp [winCount_cons, winCount_nil])
      · cases hs : opts.SkippedCopyHandler with
        | none =>
          rw [preHandler_exists_noHook env opts t desc hm hdst hs]
          exact trackStep_markDone desc.digest (trackStep_win t desc.digest hm
            [Event.dstExists desc.digest, Event.closeDone desc.digest]
            (fun dg => by simp [winCount_cons, winCount_nil]))
        | some h =>
          rw [preHandler_exists_hook env opts t desc h hm hdst hs]
          exact trackStep_markDone desc.digest (trackStep_win t desc.digest hm
            [Event.dstExists desc.digest, Event.closeDone desc.digest,
              Event.skippedHook desc.digest]
            (fun dg => by simp [winCount_cons, winCount_nil]))

/-- The wait loop is a `TrackStep`. -/
theorem waitForChildren_trackStep (env : Env) (p : String) :
    ∀ (cs : List Descriptor) (t : Tracker),
      TrackStep t (waitForChildren env p t cs).1
        (waitForChildren env p t cs).2.1 := by
  intro cs
  induction cs with
  | nil => intro t; exact trackStep_of_noWins t [] (fun dg => rfl)
  | cons c0 rest ih =>
    intro t
    by_cases hm : c0.digest ∈ t.entries
    · cases hw : env.wait c0.digest with
      | some e =>
        rw [waitForChildren_cons_wait_err env p t c0 rest e hm hw]
        exact trackStep_of_noWins t _
          (fun dg => by simp [winCount_cons, winCount_nil])
      | none =>
        rw [waitForChildren_cons_wait_ok env p t c0 rest hm hw]
        exact (trackStep_of_noWins t
          [Event.tryCommit c0.digest false, Event.waitDone c0.digest]
          (fun dg => by simp [winCount_cons, winCount_nil])).comp (ih t)
    · rw [waitForChildren_cons_uncommitted env p t c0 rest hm]
      exact trackStep_win t c0.digest hm [] (fun dg => rfl)

/-- The body of the post-handler is a `TrackStep`. -/
theorem postBody_trackStep (env : Env) (opts : CopyGraphOptions)
    (t : Tracker) (desc : Descriptor) :
    TrackStep t (postBody env opts t desc).1
      (postBody env opts t desc).2.1 := by
  cases hc : env.cacheExists desc.digest with
  | error e =>
    rw [postBody_cacheErr env opts t desc e hc]
    exact trackStep_of_noWins t _
      (fun dg => by simp [winCount_cons, winCount_nil])
  | ok b =>
    cases b
    · rw [postBody_leaf env opts t desc hc]
      exact trackStep_of_noWins t _
        (fun dg => by
          simp [winCount_cons, handleCopyNode_noWins env opts .source desc dg])
    · cases hd : env.downEdges desc.digest with
      | error e =>
        rw [postBody_downErr env opts t desc e hc hd]
        exact trackStep_of_noWins t _
          (fun dg => by simp [winCount_cons, winCount_nil])
      | ok cs =>
        cases hw : (waitForChildren env desc.digest t cs).2.2 with
        | some e =>
          rw [postBody_waitErr env opts t desc cs e hc hd hw]
          exact (trackStep_of_noWins t
            [Event.cacheExists desc.digest, Event.downEdges desc.digest]
            (fun dg => by simp [winCount_cons, winCount_nil])).comp
            (waitForChildren_trackStep env desc.digest cs t)
        | none =>
          rw [postBody_nonleaf env opts t desc cs hc hd hw]
          exact (trackStep_of_noWins t
            [Event.cacheExists desc.digest, Event.downEdges desc.digest]
            (fun dg => by simp [winCount_cons, winCount_nil])).comp
            ((waitForChildren_trackStep env desc.digest cs t).comp
              (trackStep_of_noWins _ _
                (fun dg => handleCopyNode_noWins env opts .cache desc dg)))

/-- The post-handler is a `TrackStep`. -/
theorem postHandler_trackStep (env : Env) (opts : CopyGraphOptions)
    (t : Tracker) (desc : Descriptor) :
    TrackStep t (postHandler env opts t desc).1
      (postHandler env opts t desc).2.1 := by
  cases hb : (postBody env opts t desc).2.2 with
  | some e =>
    rw [postHandler_err env opts t desc e hb]
    exact postBody_trackStep env opts t desc
  | none =>
    rw [postHandler_ok env opts t desc hb]
    exact (postBody_trackStep env opts t desc).comp
      (trackStep_markDone desc.digest
        ((trackStep_tryCommit (postBody env opts t desc).1 desc.digest).comp
          (trackStep_of_noWins _ [Event.closeDone desc.digest]
            (fun dg => by simp [winCount_cons, winCount_nil]))))

/-- One handler invocation by some worker: a pre-visit or a post-visit of a
descriptor under an environment and options. -/
inductive Op where
  | pre (env : Env) (opts : CopyGraphOptions) (desc : Descriptor)
  | post (env : Env) (opts : CopyGraphOptions) (desc : Descriptor)

/-- A sequential interleaving of handler invocations threading the shared
tracker (the tracker's mutations are atomic per §4.1, so any concurrent
history of `TryCommit`/`close` calls linearises to such a sequence). -/
def runOps : Tracker → List Op → Tracker × List Event
  | t, [] => (t, [])
  | t, .pre env opts desc :: rest =>
    let r := preHandler env opts t desc
    let r2 := runOps r.1 rest
    (r2.1, r.2.1 ++ r2.2)
  | t, .post env opts desc :: rest =>
    let r := postHandler env opts t desc
    let r2 := runOps r.1 rest
    (r2.1, r.2.1 ++ r2.2)

/-- Any interleaving of handler invocations is a `TrackStep`. -/
theorem runOps_trackStep : ∀ (ops : List Op) (t : Tracker),
    TrackStep t (runOps t ops).1 (runOps t ops).2 := by
  intro ops
  induction ops with
  | nil => intro t; exact trackStep_of_noWins t [] (fun dg => rfl)
  | cons op rest ih =>
    intro t
    cases op with
    | pre env opts desc =>
      exact (preHandler_trackStep env opts t desc).comp (ih _)
    | post env opts desc =>
      exact (postHandler_trackStep env opts t desc).comp (ih _)

/-- C3: across any interleaving of handler invocations starting from the
fresh tracker, at most one `TryCommit` for a given digest ever wins — so at
most one worker owns (and may push) that digest; and every pre-handler that
loses the race returns the skip sentinel at once, with the tracker
untouched and without enumerating children or touching the destination (no
existence check, no discovery, no fetch, no push). -/
theorem c3_unique_commit_winner :
    (∀ (dg : String) (ops : List Op),
      winCount dg (runOps Tracker.init ops).2 ≤ 1) ∧
    (∀ env opts (t : Tracker) desc, desc.digest ∈ t.entries →
      preHandler env opts t desc =
        (t, [Event.tryCommit desc.digest false], PreResult.skip) ∧
      (∀ dg, Event.dstExists dg ∉ (preHandler env opts t desc).2.1) ∧
      (∀ dg, Event.downEdges dg ∉ (preHandler env opts t desc).2.1) ∧
      (∀ s dg, Event.fetch s dg ∉ (preHandler env opts t desc).2.1) ∧
      (∀ dg, Event.push dg ∉ (preHandler env opts t desc).2.1)) := by
  constructor
  · intro dg ops
    exact ((runOps_trackStep ops Tracker.init) dg).2.1
  · intro env opts t desc hm
    have h := preHandler_lose env opts t desc hm
    refine ⟨h, fun dg2 hmem => ?_, fun dg2 hmem => ?_,
      fun s dg2 hmem => ?_, fun dg2 hmem => ?_⟩ <;>
      rw [h] at hmem <;> simp at hmem

/-- Witness for C3 at concrete inputs: two successive pre-visits of the
same leaf win at most once, and a pre-visit losing the race skips. -/
theorem c3_witness :
    winCount "sha256:aaa"
      (runOps Tracker.init [.pre envOk {} descA, .pre envOk {} descA]).2 ≤
      1 ∧
    preHandler envOk {} { entries := ["sha256:aaa"], doneSet := [] } descA =
      ({ entries := ["sha256:aaa"], doneSet := [] },
        [Event.tryCommit "sha256:aaa" false], PreResult.skip) :=
  ⟨c3_unique_commit_winner.1 "sha256:aaa"
      [.pre envOk {} descA, .pre envOk {} descA],
    (c3_unique_commit_winner.2 envOk {}
      { entries := ["sha256:aaa"], doneSet := [] } descA (by decide)).1⟩
